import Mathlib

/-!
Dating app: registration, login, profile and dashboard handlers

A shallow embedding of `src/db.js` (the `users` table) and `src/app.js` (the
Express route handlers), followed by the properties of the handlers.

Modelling conventions.

* A request body (`req.body`, parsed by `express.urlencoded`) is a map from
  keys to text values; a key that was not submitted reads as `none`
  (JavaScript `undefined`). Each key carries at most one value.
* The session (`req.session`) carries the optional `userId`.
* The collaborators the handlers await (the database handle, each query, the
  bcrypt calls) may reject. Whether they do for a given request, together with
  the salt drawn by `bcrypt.hash` and the clock read by `CURRENT_TIMESTAMP`,
  is the `World` of that request.
* Every handler returns the store and the session it leaves behind, what was
  sent to the client (or that the handler's promise rejected before anything
  was sent), and the list of collaborator calls it made, in order.
* Row ids are natural numbers; the 64-bit ceiling of SQLite rowids is ignored.
-/

namespace Dating

/-! ## The users table (src/db.js) -/

/-- A row of `users`: the six columns of the `CREATE TABLE` statement. The
column `created_at` is the value of `CURRENT_TIMESTAMP` at insertion, kept as
a number of seconds. -/
structure User where
  id : Nat
  name : String
  email : String
  password_hash : String
  bio : String
  created_at : Nat
deriving DecidableEq, Repr

/-- The database: the rows of `users` and the counter SQLite keeps for an
`AUTOINCREMENT` key (the largest id ever handed out). -/
structure Store where
  rows : List User
  seq : Nat
deriving DecidableEq, Repr

/-- What a row of the dashboard match list carries: `SELECT name, bio`. -/
structure Match where
  name : String
  bio : String
deriving DecidableEq, Repr

/-- The projection `SELECT id, name, email, bio` of the dashboard. -/
structure CurrentUser where
  id : Nat
  name : String
  email : String
  bio : String
deriving DecidableEq, Repr

namespace Store

/-- The query `SELECT ... FROM users WHERE email = ?` through `db.get`: the
first matching row, if any. -/
def getByEmail (st : Store) (email : String) : Option User :=
  st.rows.find? (fun r => r.email == email)

/-- The query `SELECT ... FROM users WHERE id = ?` through `db.get`. -/
def getById (st : Store) (id : Nat) : Option User :=
  st.rows.find? (fun r => r.id == id)

/-- The largest id present in the table (0 for an empty table). -/
def maxId (st : Store) : Nat :=
  st.rows.foldr (fun r m => max r.id m) 0

/-- The id an `INTEGER PRIMARY KEY AUTOINCREMENT` column gives the next row:
one more than the largest id that is or ever was in the table. -/
def nextId (st : Store) : Nat :=
  max st.seq st.maxId + 1

/-- The statement `INSERT INTO users (name, email, password_hash, bio)`: it is
refused (`none`) when the `UNIQUE` constraint on `email` is violated, and
otherwise appends the row and returns the new store with `lastID`. -/
def insert (st : Store) (name email passwordHash bio : String) (now : Nat) :
    Option (Store × Nat) :=
  if st.rows.any (fun r => r.email == email) then none
  else
    let lastID := st.nextId
    some ({ rows := st.rows ++ [⟨lastID, name, email, passwordHash, bio, now⟩],
            seq := lastID }, lastID)

/-- The statement `UPDATE users SET name = ?, bio = ? WHERE id = ?`. -/
def update (st : Store) (name bio : String) (id : Nat) : Store :=
  { st with rows := st.rows.map (fun r => if r.id == id then { r with name := name, bio := bio } else r) }

/-- The order of `ORDER BY created_at DESC`. -/
def newerFirst (a b : User) : Prop := b.created_at ≤ a.created_at

instance : DecidableRel newerFirst := fun a b => Nat.decLe b.created_at a.created_at

/-- The rows selected by `WHERE id != ?`. -/
def others (st : Store) (id : Nat) : List User :=
  st.rows.filter (fun r => r.id != id)

/-- The query `SELECT name, bio FROM users WHERE id != ? ORDER BY created_at
DESC LIMIT 12` through `db.all`. Rows with equal `created_at` keep their table
order. -/
def listOthers (st : Store) (id : Nat) : List Match :=
  (((st.others id).insertionSort newerFirst).take 12).map (fun r => ⟨r.name, r.bio⟩)

end Store

/-! ## Requests, sessions, responses -/

/-- The parsed body `req.body`. -/
abbrev Body := String → Option String

/-- The session state `req.session`. -/
structure Session where
  userId : Option Nat
deriving DecidableEq, Repr

/-- The data object of a form view: submitted keys with their values. -/
abbrev Form := List (String × Option String)

/-- The data handed to `res.render`. -/
inductive ViewData where
  | formView (error : Option String) (form : Option Form)
  | dashboard (currentUser : Option CurrentUser) (matchRows : List Match)
deriving DecidableEq, Repr

/-- What a handler sends: `res.redirect(path)` or
`res.status(status).render(view, data)`. -/
inductive Response where
  | redirect (path : String)
  | render (status : Nat) (view : String) (data : ViewData)
deriving DecidableEq, Repr

/-- The outcome of a handler at the request boundary: a response was sent, or
the handler's promise rejected and the handler sent nothing. -/
inductive Reply where
  | sent (r : Response)
  | unhandled
deriving DecidableEq, Repr

/-- The collaborator calls a handler can make. -/
inductive Call where
  | dbOpen
  | get
  | run
  | all
  | hash
  | compare
deriving DecidableEq, Repr

/-- The environment of one request: which awaited collaborator resolves, the
salt of `bcrypt.hash` and the clock. -/
structure World where
  openOk : Bool
  getOk : Bool
  runOk : Bool
  allOk : Bool
  salt : Nat
  now : Nat
deriving DecidableEq, Repr

/-- The password hashing library (`bcryptjs`): `hash password salt` and
`compare password hash`, each `none` when the call rejects. -/
structure Bcrypt where
  hash : String → Nat → Option String
  compare : String → String → Option Bool

/-- The result of running a handler. -/
structure Result where
  store : Store
  session : Session
  reply : Reply
  calls : List Call
deriving DecidableEq, Repr

/-- JavaScript truthiness of a body value: `some s` when the value is a
non-empty string, `none` for `undefined` and for the empty string. -/
def required (v : Option String) : Option String :=
  match v with
  | some s => if s = "" then none else some s
  | none => none

/-- The routes of the application. -/
inductive Route where
  | getRoot
  | getRegister
  | postRegister
  | getLogin
  | postLogin
  | getDashboard
  | getLogout
  | getProfile
  | postProfile
deriving DecidableEq, Repr

/-- A request: the route and the parsed body. -/
structure Request where
  route : Route
  body : Body

/-! ## The handlers (src/app.js) -/

/-- The middleware `requireAuth`: redirect to `/login` when
`req.session.userId` is falsy (absent, or the number 0), else run the handler
with the user id. -/
def requireAuth (st : Store) (s : Session) (next : Nat → Result) : Result :=
  match s.userId with
  | none => ⟨st, s, .sent (.redirect "/login"), []⟩
  | some u => if u = 0 then ⟨st, s, .sent (.redirect "/login"), []⟩ else next u

/-- The handler `app.get('/')`. -/
def getRoot (st : Store) (s : Session) : Result :=
  match s.userId with
  | none => ⟨st, s, .sent (.redirect "/login"), []⟩
  | some u =>
    if u = 0 then ⟨st, s, .sent (.redirect "/login"), []⟩
    else ⟨st, s, .sent (.redirect "/dashboard"), []⟩

/-- The handler `app.get('/register')`. -/
def getRegister (st : Store) (s : Session) : Result :=
  ⟨st, s, .sent (.render 200 "register" (.formView none (some []))), []⟩

/-- The form echoed by `POST /register`: name, email and bio as submitted. -/
def registerForm (body : Body) : Form :=
  [("name", body "name"), ("email", body "email"), ("bio", body "bio")]

/-- The handler `app.post('/register')`. -/
def postRegister (bc : Bcrypt) (w : World) (st : Store) (s : Session) (body : Body) : Result :=
  match required (body "name"), required (body "email"),
        required (body "password"), required (body "bio") with
  | some name, some email, some password, some bio =>
    let failed (calls : List Call) : Result :=
      ⟨st, s, .sent (.render 500 "register"
        (.formView (some "Unable to create account right now.") (some (registerForm body)))), calls⟩
    if !w.openOk then failed [.dbOpen]
    else if !w.getOk then failed [.dbOpen, .get]
    else
      match st.getByEmail email with
      | some _ =>
        ⟨st, s, .sent (.render 400 "register"
          (.formView (some "That email is already registered.") (some (registerForm body)))),
          [.dbOpen, .get]⟩
      | none =>
        match bc.hash password w.salt with
        | none => failed [.dbOpen, .get, .hash]
        | some passwordHash =>
          if !w.runOk then failed [.dbOpen, .get, .hash, .run]
          else
            match st.insert name email passwordHash bio w.now with
            | none => failed [.dbOpen, .get, .hash, .run]
            | some (st', lastID) =>
              ⟨st', { s with userId := some lastID }, .sent (.redirect "/dashboard"),
                [.dbOpen, .get, .hash, .run]⟩
  | _, _, _, _ =>
    ⟨st, s, .sent (.render 400 "register"
      (.formView (some "Please fill out all fields.") (some (registerForm body)))), []⟩

/-- The handler `app.get('/login')`. -/
def getLogin (st : Store) (s : Session) : Result :=
  ⟨st, s, .sent (.render 200 "login" (.formView none (some []))), []⟩

/-- The form echoed by `POST /login`: the email as submitted. -/
def loginForm (body : Body) : Form :=
  [("email", body "email")]

/-- The handler `app.post('/login')`. -/
def postLogin (bc : Bcrypt) (w : World) (st : Store) (s : Session) (body : Body) : Result :=
  match required (body "email"), required (body "password") with
  | some email, some password =>
    let failed (calls : List Call) : Result :=
      ⟨st, s, .sent (.render 500 "login"
        (.formView (some "Unable to log in right now.") (some (loginForm body)))), calls⟩
    let invalid (calls : List Call) : Result :=
      ⟨st, s, .sent (.render 401 "login"
        (.formView (some "Invalid email or password.") (some (loginForm body)))), calls⟩
    if !w.openOk then failed [.dbOpen]
    else if !w.getOk then failed [.dbOpen, .get]
    else
      match st.getByEmail email with
      | none => invalid [.dbOpen, .get]
      | some user =>
        match bc.compare password user.password_hash with
        | none => failed [.dbOpen, .get, .compare]
        | some false => invalid [.dbOpen, .get, .compare]
        | some true =>
          ⟨st, { s with userId := some user.id }, .sent (.redirect "/dashboard"),
            [.dbOpen, .get, .compare]⟩
  | _, _ =>
    ⟨st, s, .sent (.render 400 "login"
      (.formView (some "Email and password are required.") (some (loginForm body)))), []⟩

/-- The handler `app.get('/dashboard')`, behind `requireAuth`. It has no
`try`: a rejecting collaborator rejects the handler. -/
def getDashboard (w : World) (st : Store) (s : Session) : Result :=
  requireAuth st s fun userId =>
    if !w.openOk then ⟨st, s, .unhandled, [.dbOpen]⟩
    else if !w.getOk then ⟨st, s, .unhandled, [.dbOpen, .get]⟩
    else if !w.allOk then ⟨st, s, .unhandled, [.dbOpen, .get, .all]⟩
    else
      let currentUser := (st.getById userId).map (fun r => (⟨r.id, r.name, r.email, r.bio⟩ : CurrentUser))
      ⟨st, s, .sent (.render 200 "dashboard" (.dashboard currentUser (st.listOthers userId))),
        [.dbOpen, .get, .all]⟩

/-- The handler `app.get('/logout')`: the session is destroyed, so the client
is left with an empty one. -/
def getLogout (st : Store) (_s : Session) : Result :=
  ⟨st, { userId := none }, .sent (.redirect "/login"), []⟩

/-- The handler `app.get('/profile')`, behind `requireAuth`. The form is the
row `SELECT name, email, bio`, or `undefined` when there is none. -/
def getProfile (w : World) (st : Store) (s : Session) : Result :=
  requireAuth st s fun userId =>
    if !w.openOk then ⟨st, s, .unhandled, [.dbOpen]⟩
    else if !w.getOk then ⟨st, s, .unhandled, [.dbOpen, .get]⟩
    else
      let currentUser : Option Form := (st.getById userId).map (fun r =>
        [("name", some r.name), ("email", some r.email), ("bio", some r.bio)])
      ⟨st, s, .sent (.render 200 "profile" (.formView none currentUser)), [.dbOpen, .get]⟩

/-- The form echoed by `POST /profile`: name and bio as submitted. -/
def profileForm (body : Body) : Form :=
  [("name", body "name"), ("bio", body "bio")]

/-- The handler `app.post('/profile')`, behind `requireAuth`. -/
def postProfile (w : World) (st : Store) (s : Session) (body : Body) : Result :=
  requireAuth st s fun userId =>
    match required (body "name"), required (body "bio") with
    | some name, some bio =>
      if !w.openOk then ⟨st, s, .unhandled, [.dbOpen]⟩
      else if !w.runOk then ⟨st, s, .unhandled, [.dbOpen, .run]⟩
      else ⟨st.update name bio userId, s, .sent (.redirect "/dashboard"), [.dbOpen, .run]⟩
    | _, _ =>
      ⟨st, s, .sent (.render 400 "profile"
        (.formView (some "Name and bio are required.") (some (profileForm body)))), []⟩

/-- The router: the handler registered for the route of the request. -/
def handle (bc : Bcrypt) (w : World) (st : Store) (s : Session) (req : Request) : Result :=
  match req.route with
  | .getRoot => getRoot st s
  | .getRegister => getRegister st s
  | .postRegister => postRegister bc w st s req.body
  | .getLogin => getLogin st s
  | .postLogin => postLogin bc w st s req.body
  | .getDashboard => getDashboard w st s
  | .getLogout => getLogout st s
  | .getProfile => getProfile w st s
  | .postProfile => postProfile w st s req.body

/-- The environment in which every awaited collaborator call resolves. -/
def World.ok (w : World) : Bool :=
  w.openOk && w.getOk && w.runOk && w.allOk

/-! ## Concrete inputs -/

/-- A bcrypt stand-in for concrete evaluation: the hash of a password is the
password, and comparison is equality. -/
def demoBcrypt : Bcrypt :=
  { hash := fun p _ => some p, compare := fun p h => some (p == h) }

/-- A world without failures at time 100. -/
def demoWorld : World :=
  { openOk := true, getOk := true, runOk := true, allOk := true, salt := 7, now := 100 }

/-- The registration body of the spec's example. -/
def avaBody : Body := fun k =>
  if k = "name" then some "Ava"
  else if k = "email" then some "ava@x.com"
  else if k = "password" then some "secret123"
  else if k = "bio" then some "hi"
  else none

/-- A required field is missing: absent, or the empty string. -/
def missing (v : Option String) : Prop :=
  v = none ∨ v = some ""

/-- A table holding Ava, registered at time 100 with id 1. -/
def avaStore : Store :=
  { rows := [⟨1, "Ava", "ava@x.com", "secret123", "hi", 100⟩], seq := 1 }

/-- A login body for Ava with the wrong password. -/
def wrongBody : Body := fun k =>
  if k = "email" then some "ava@x.com"
  else if k = "password" then some "wrong"
  else none

/-- A registration body that lacks the bio and has an empty name. -/
def partialBody : Body := fun k =>
  if k = "name" then some ""
  else if k = "email" then some "ava@x.com"
  else if k = "password" then some "secret123"
  else none

instance : IsTotal User Store.newerFirst :=
  ⟨fun a b => Nat.le_total b.created_at a.created_at⟩

instance : IsTrans User Store.newerFirst :=
  ⟨fun _ _ _ hab hbc => Nat.le_trans hbc hab⟩

/-- A table of three users; Ben and Cy registered after Ava. -/
def trioStore : Store :=
  { rows := [⟨1, "Ava", "ava@x.com", "h1", "hi", 100⟩,
             ⟨2, "Ben", "ben@x.com", "h2", "yo", 200⟩,
             ⟨3, "Cy", "cy@x.com", "h3", "hey", 150⟩],
    seq := 3 }

/-- A profile body that also carries an id and an email. -/
def editBody : Body := fun k =>
  if k = "name" then some "Benjamin"
  else if k = "bio" then some "new bio"
  else if k = "id" then some "1"
  else if k = "email" then some "evil@x.com"
  else none

/-- A world in which the database handle opens and every query rejects. -/
def failingQueries : World :=
  { openOk := true, getOk := false, runOk := false, allOk := false, salt := 7, now := 100 }

/-- The store invariant: emails are pairwise distinct, ids are pairwise
distinct, and every row has a non-empty name and a non-empty bio. -/
def StoreInv (st : Store) : Prop :=
  (st.rows.map (fun r => r.email)).Nodup ∧
  (st.rows.map (fun r => r.id)).Nodup ∧
  ∀ r ∈ st.rows, r.name ≠ "" ∧ r.bio ≠ ""

instance (st : Store) : Decidable (StoreInv st) := by
  unfold StoreInv
  infer_instance

/-- The stores reachable from an empty users table by requests to any routes,
with any sessions, bodies and worlds. -/
inductive StoreReachable (bc : Bcrypt) : Store → Prop where
  | empty (seq : Nat) : StoreReachable bc ⟨[], seq⟩
  | step {st : Store} (w : World) (s : Session) (req : Request) :
      StoreReachable bc st → StoreReachable bc (handle bc w st s req).store

/-- The whole application state: the table and the session store, the latter
as a map from session token to session state (a token without a session reads
as the empty session). -/
structure System where
  store : Store
  sessions : Nat → Session

/-- One request carrying session token `tok`: the handler runs on the store
and on the session of that token, and both are written back. -/
def System.step (bc : Bcrypt) (g : System) (tok : Nat) (w : World) (req : Request) : System :=
  { store := (handle bc w g.store (g.sessions tok) req).store,
    sessions := Function.update g.sessions tok (handle bc w g.store (g.sessions tok) req).session }

/-- The application states reachable from an empty users table and an empty
session store. -/
inductive Reachable (bc : Bcrypt) : System → Prop where
  | init (seq : Nat) : Reachable bc ⟨⟨[], seq⟩, fun _ => ⟨none⟩⟩
  | step {g : System} (tok : Nat) (w : World) (req : Request) :
      Reachable bc g → Reachable bc (g.step bc tok w req)

/-- The ways a handler can leave the store and the session, given the ones it
started from: the store untouched (and the session kept, emptied, or bound to
the id of a row of the table); one `UPDATE` with non-empty name and bio (the
session kept); one `INSERT` of a row with non-empty name and bio and an email
not yet in the table (the session bound to the new id). -/
def Effect (st : Store) (s : Session) (st' : Store) (s' : Session) : Prop :=
  (st' = st ∧ (s' = s ∨ s'.userId = none ∨ ∃ r ∈ st.rows, s'.userId = some r.id)) ∨
  (∃ name bio u, name ≠ "" ∧ bio ≠ "" ∧ st' = st.update name bio u ∧ s' = s) ∨
  (∃ name email h bio now, name ≠ "" ∧ bio ≠ "" ∧ (∀ r ∈ st.rows, r.email ≠ email) ∧
    st' = ⟨st.rows ++ [⟨st.nextId, name, email, h, bio, now⟩], st.nextId⟩ ∧
    s'.userId = some st.nextId)

/-- The session invariant: the store invariant holds, no row has id 0, and
every session that carries a userId carries the id of a row of the table. -/
def SystemInv (g : System) : Prop :=
  StoreInv g.store ∧ (∀ r ∈ g.store.rows, r.id ≠ 0) ∧
  ∀ tok u, (g.sessions tok).userId = some u → ∃ r ∈ g.store.rows, r.id = u

/-! # Properties -/

/-! ## Lemmas about the table -/

theorem required_eq_some {v : Option String} {x : String} (h : v = some x) (hx : x ≠ "") :
    required v = some x := by
  subst h
  simp [required, hx]

theorem required_eq_none {v : Option String} (h : v = none ∨ v = some "") :
    required v = none := by
  rcases h with h | h <;> subst h <;> simp [required]

theorem Store.getByEmail_eq_none {st : Store} {email : String}
    (h : ∀ r ∈ st.rows, r.email ≠ email) : st.getByEmail email = none := by
  simp only [Store.getByEmail, List.find?_eq_none]
  intro r hr
  simpa using h r hr

theorem Store.getByEmail_isSome {st : Store} {email : String}
    (h : ∃ r ∈ st.rows, r.email = email) : ∃ u, st.getByEmail email = some u ∧ u.email = email := by
  cases hg : st.getByEmail email with
  | none =>
    simp only [Store.getByEmail, List.find?_eq_none] at hg
    obtain ⟨r, hr, he⟩ := h
    exact absurd (by simpa using he) (hg r hr)
  | some u =>
    refine ⟨u, rfl, ?_⟩
    have := List.find?_some hg
    simpa using this

theorem Store.insert_fresh {st : Store} {email : String} (name passwordHash bio : String)
    (now : Nat) (h : ∀ r ∈ st.rows, r.email ≠ email) :
    st.insert name email passwordHash bio now =
      some ({ rows := st.rows ++ [⟨st.nextId, name, email, passwordHash, bio, now⟩],
              seq := st.nextId }, st.nextId) := by
  have hany : st.rows.any (fun r => r.email == email) = false := by
    rw [Bool.eq_false_iff]
    intro hc
    rw [List.any_eq_true] at hc
    obtain ⟨r, hr, he⟩ := hc
    exact h r hr (by simpa using he)
  simp [Store.insert, hany]

/-! ## Register, then login -/

/-- Claim C2. When the table already holds a row with the submitted email and
the collaborators resolve, registering with four non-empty fields answers 400
with the register view and the message that the email is already registered,
and leaves the store (rows and counter) and the session as they were; neither
the hash nor the insert is called. -/
theorem register_duplicate (bc : Bcrypt) (w : World) (st : Store) (s : Session)
    (body : Body) (name email password bio : String)
    (hname : body "name" = some name) (hname0 : name ≠ "")
    (hemail : body "email" = some email) (hemail0 : email ≠ "")
    (hpassword : body "password" = some password) (hpassword0 : password ≠ "")
    (hbio : body "bio" = some bio) (hbio0 : bio ≠ "")
    (hdup : ∃ r ∈ st.rows, r.email = email)
    (hw : w.ok = true) :
    (postRegister bc w st s body).reply = .sent (.render 400 "register"
      (.formView (some "That email is already registered.")
        (some [("name", some name), ("email", some email), ("bio", some bio)]))) ∧
    (postRegister bc w st s body).store = st ∧
    (postRegister bc w st s body).store.rows.length = st.rows.length ∧
    (postRegister bc w st s body).session = s ∧
    (postRegister bc w st s body).calls = [.dbOpen, .get] := by
  obtain ⟨u, hu, -⟩ := Store.getByEmail_isSome hdup
  simp only [World.ok, Bool.and_eq_true] at hw
  obtain ⟨⟨⟨ho, hg⟩, -⟩, -⟩ := hw
  have e : postRegister bc w st s body = ⟨st, s, .sent (.render 400 "register"
      (.formView (some "That email is already registered.") (some (registerForm body)))),
      [.dbOpen, .get]⟩ := by
    simp [postRegister, required_eq_some hname hname0, required_eq_some hemail hemail0,
      required_eq_some hpassword hpassword0, required_eq_some hbio hbio0, ho, hg, hu]
  rw [e]
  simp [registerForm, hname, hemail, hbio]

/-- Claim C2 at the spec's example: Ava registers a second time. -/
theorem register_duplicate_witness :
    (postRegister demoBcrypt demoWorld avaStore ⟨none⟩ avaBody).store = avaStore ∧
    (postRegister demoBcrypt demoWorld avaStore ⟨none⟩ avaBody).session = ⟨none⟩ :=
  have h := register_duplicate demoBcrypt demoWorld avaStore ⟨none⟩ avaBody
    "Ava" "ava@x.com" "secret123" "hi" (by decide) (by decide) (by decide) (by decide)
    (by decide) (by decide) (by decide) (by decide) (by simp [avaStore]) (by decide)
  ⟨h.2.1, h.2.2.2.1⟩

/-! ## Failed logins -/

/-- Claim C3. With collaborators that resolve, a login whose email is found
but whose password does not verify, and a login (against any store, with any
password) whose email is found in no row, receive the same response: status
401, view login, the message "Invalid email or password." and a form holding
only the submitted email. In both cases the session and the store are left as
they were. -/
theorem login_failure_indistinguishable (bc : Bcrypt) (w1 w2 : World) (st1 st2 : Store)
    (s1 s2 : Session) (body1 body2 : Body) (email password1 password2 : String) (user : User)
    (hemail1 : body1 "email" = some email) (hemail2 : body2 "email" = some email)
    (hemail0 : email ≠ "")
    (hpassword1 : body1 "password" = some password1) (hp1 : password1 ≠ "")
    (hpassword2 : body2 "password" = some password2) (hp2 : password2 ≠ "")
    (hfound : st1.getByEmail email = some user)
    (hwrong : bc.compare password1 user.password_hash = some false)
    (hunknown : ∀ r ∈ st2.rows, r.email ≠ email)
    (hw1 : w1.ok = true) (hw2 : w2.ok = true) :
    (postLogin bc w1 st1 s1 body1).reply = (postLogin bc w2 st2 s2 body2).reply ∧
    (postLogin bc w1 st1 s1 body1).reply = .sent (.render 401 "login"
      (.formView (some "Invalid email or password.") (some [("email", some email)]))) ∧
    (postLogin bc w1 st1 s1 body1).session = s1 ∧
    (postLogin bc w2 st2 s2 body2).session = s2 ∧
    (postLogin bc w1 st1 s1 body1).store = st1 ∧
    (postLogin bc w2 st2 s2 body2).store = st2 := by
  simp only [World.ok, Bool.and_eq_true] at hw1 hw2
  obtain ⟨⟨⟨ho1, hg1⟩, -⟩, -⟩ := hw1
  obtain ⟨⟨⟨ho2, hg2⟩, -⟩, -⟩ := hw2
  have e1 : postLogin bc w1 st1 s1 body1 = ⟨st1, s1, .sent (.render 401 "login"
      (.formView (some "Invalid email or password.") (some (loginForm body1)))),
      [.dbOpen, .get, .compare]⟩ := by
    simp [postLogin, required_eq_some hemail1 hemail0, required_eq_some hpassword1 hp1,
      ho1, hg1, hfound, hwrong]
  have e2 : postLogin bc w2 st2 s2 body2 = ⟨st2, s2, .sent (.render 401 "login"
      (.formView (some "Invalid email or password.") (some (loginForm body2)))),
      [.dbOpen, .get]⟩ := by
    simp [postLogin, required_eq_some hemail2 hemail0, required_eq_some hpassword2 hp2,
      ho2, hg2, Store.getByEmail_eq_none hunknown]
  rw [e1, e2]
  simp [loginForm, hemail1, hemail2]

/-- Claim C3 at the spec's example: the wrong password for Ava, against the
same login sent to an empty table. -/
theorem login_failure_indistinguishable_witness :
    (postLogin demoBcrypt demoWorld avaStore ⟨none⟩ wrongBody).reply
      = (postLogin demoBcrypt demoWorld ⟨[], 0⟩ ⟨none⟩ wrongBody).reply ∧
    (postLogin demoBcrypt demoWorld avaStore ⟨none⟩ wrongBody).session = ⟨none⟩ :=
  have h := login_failure_indistinguishable demoBcrypt demoWorld demoWorld avaStore ⟨[], 0⟩
    ⟨none⟩ ⟨none⟩ wrongBody wrongBody "ava@x.com" "wrong" "wrong"
    ⟨1, "Ava", "ava@x.com", "secret123", "hi", 100⟩
    (by decide) (by decide) (by decide) (by decide) (by decide) (by decide) (by decide)
    (by decide) (by decide) (by simp) (by decide) (by decide)
  ⟨h.1, h.2.2.1⟩

/-! ## Validation -/

/-- Claim C7. In each of POST /register, POST /login and POST /profile (the
last for a session that passes the guard), when a required field is absent or
empty the handler answers 400 with its own form view, the form holds exactly
the submitted non-password fields (no password key), no collaborator is
called, and the store and the session are left as they were. -/
theorem validation_short_circuit (bc : Bcrypt) (w : World) (st : Store) (s : Session)
    (body : Body) :
    ((missing (body "name") ∨ missing (body "email") ∨ missing (body "password") ∨
        missing (body "bio")) →
      postRegister bc w st s body = ⟨st, s, .sent (.render 400 "register"
        (.formView (some "Please fill out all fields.")
          (some [("name", body "name"), ("email", body "email"), ("bio", body "bio")]))), []⟩) ∧
    ((missing (body "email") ∨ missing (body "password")) →
      postLogin bc w st s body = ⟨st, s, .sent (.render 400 "login"
        (.formView (some "Email and password are required.")
          (some [("email", body "email")]))), []⟩) ∧
    (∀ u, s.userId = some u → u ≠ 0 → (missing (body "name") ∨ missing (body "bio")) →
      postProfile w st s body = ⟨st, s, .sent (.render 400 "profile"
        (.formView (some "Name and bio are required.")
          (some [("name", body "name"), ("bio", body "bio")]))), []⟩) := by
  refine ⟨?_, ?_, ?_⟩
  · intro h
    unfold postRegister
    split
    · rename_i hn he hp hb
      rcases h with h | h | h | h <;> simp [required_eq_none h] at hn he hp hb
    · rfl
  · intro h
    unfold postLogin
    split
    · rename_i he hp
      rcases h with h | h <;> simp [required_eq_none h] at he hp
    · rfl
  · intro u hu hu0 h
    unfold postProfile requireAuth
    simp only [hu, hu0, if_false]
    split
    · rename_i hn hb
      rcases h with h | h <;> simp [required_eq_none h] at hn hb
    · rfl

/-- Claim C7 at a registration with an empty name and no bio: the answer is
400 and nothing was called. -/
theorem validation_short_circuit_witness :
    (postRegister demoBcrypt demoWorld avaStore ⟨none⟩ partialBody).reply
      = .sent (.render 400 "register" (.formView (some "Please fill out all fields.")
          (some [("name", some ""), ("email", some "ava@x.com"), ("bio", none)]))) ∧
    (postRegister demoBcrypt demoWorld avaStore ⟨none⟩ partialBody).calls = [] :=
  have h := (validation_short_circuit demoBcrypt demoWorld avaStore ⟨none⟩ partialBody).1
    (Or.inl (Or.inr (by decide)))
  ⟨by rw [h]; decide, by rw [h]⟩

/-! ## The guard -/

/-- Claim C6. GET /logout leaves a session without userId and redirects to
/login; and for a session without userId each protected route (GET /dashboard,
GET /profile, POST /profile) redirects to /login, calls no collaborator (the
handler body does not run), and leaves the store and the session as they were,
whatever the body holds. -/
theorem auth_guard_after_logout (bc : Bcrypt) (w : World) (st : Store) (s s0 : Session)
    (body : Body) (h0 : s0.userId = none) :
    (getLogout st s).session.userId = none ∧
    (getLogout st s).reply = .sent (.redirect "/login") ∧
    (getLogout st s).store = st ∧
    handle bc w st s0 ⟨.getDashboard, body⟩ = ⟨st, s0, .sent (.redirect "/login"), []⟩ ∧
    handle bc w st s0 ⟨.getProfile, body⟩ = ⟨st, s0, .sent (.redirect "/login"), []⟩ ∧
    handle bc w st s0 ⟨.postProfile, body⟩ = ⟨st, s0, .sent (.redirect "/login"), []⟩ := by
  simp [getLogout, handle, getDashboard, getProfile, postProfile, requireAuth, h0]

/-- Claim C6 at Ava's session: after logout, a profile update carrying a full
body is redirected to /login and the table is untouched. -/
theorem auth_guard_after_logout_witness :
    handle demoBcrypt demoWorld avaStore (getLogout avaStore ⟨some 1⟩).session
      ⟨.postProfile, avaBody⟩
      = ⟨avaStore, (getLogout avaStore ⟨some 1⟩).session, .sent (.redirect "/login"), []⟩ :=
  (auth_guard_after_logout demoBcrypt demoWorld avaStore ⟨some 1⟩
    (getLogout avaStore ⟨some 1⟩).session avaBody rfl).2.2.2.2.2

/-! ## Profile update -/

/-- Claim C5. For a session that passes the guard with userId u and
collaborators that resolve, GET /dashboard renders the dashboard view with a
match list that is the name and bio of a list of selected rows, where the
selected rows (a) are rows of the table with id other than u, (b) number at
most 12, exactly the smaller of 12 and the number of rows with id other than
u, (c) are in descending order of created_at, and (d) are the first 12 of an
arrangement of all rows with id other than u in descending order of
created_at. -/
theorem dashboard_match_list (w : World) (st : Store) (s : Session) (u : Nat)
    (hu : s.userId = some u) (hu0 : u ≠ 0) (hw : w.ok = true) :
    ∃ (cu : Option CurrentUser) (sel : List User),
      (getDashboard w st s).reply = .sent (.render 200 "dashboard"
        (.dashboard cu (sel.map (fun r => ⟨r.name, r.bio⟩)))) ∧
      (∀ r ∈ sel, r ∈ st.rows ∧ r.id ≠ u) ∧
      sel.length ≤ 12 ∧
      sel.length = min 12 (st.rows.filter (fun r => decide (r.id ≠ u))).length ∧
      sel.Pairwise (fun a b => b.created_at ≤ a.created_at) ∧
      ∃ ordered : List User,
        ordered.Perm (st.rows.filter (fun r => decide (r.id ≠ u))) ∧
        ordered.Pairwise (fun a b => b.created_at ≤ a.created_at) ∧
        sel = ordered.take 12 := by
  simp only [World.ok, Bool.and_eq_true] at hw
  obtain ⟨⟨⟨ho, hg⟩, -⟩, ha⟩ := hw
  have hoth : st.others u = st.rows.filter (fun r => decide (r.id ≠ u)) := by
    unfold Store.others
    congr 1
    funext r
    by_cases h : r.id = u <;> simp [h]
  have hperm : ((st.others u).insertionSort Store.newerFirst).Perm (st.others u) :=
    List.perm_insertionSort _ _
  have hsort : ((st.others u).insertionSort Store.newerFirst).Pairwise
      (fun a b => b.created_at ≤ a.created_at) :=
    List.sorted_insertionSort Store.newerFirst (st.others u)
  refine ⟨(st.getById u).map (fun r => ⟨r.id, r.name, r.email, r.bio⟩),
    ((st.others u).insertionSort Store.newerFirst).take 12, ?_, ?_, ?_, ?_, ?_, ?_⟩
  · simp [getDashboard, requireAuth, hu, hu0, ho, hg, ha, Store.listOthers]
  · intro r hr
    have h1 : r ∈ st.others u := hperm.subset (List.mem_of_mem_take hr)
    simpa [Store.others] using h1
  · simp [List.length_take]
  · rw [List.length_take, hperm.length_eq, hoth]
  · exact hsort.sublist (List.take_sublist _ _)
  · exact ⟨_, hoth ▸ hperm, hsort, rfl⟩

/-- Claim C5 on the table of three: Ava (id 1) sees Ben, then Cy. -/
theorem dashboard_match_list_witness :
    ∃ (cu : Option CurrentUser) (sel : List User),
      (getDashboard demoWorld trioStore ⟨some 1⟩).reply = .sent (.render 200 "dashboard"
        (.dashboard cu (sel.map (fun r => ⟨r.name, r.bio⟩)))) ∧
      sel.length = 2 ∧ ∀ r ∈ sel, r.id ≠ 1 :=
  (dashboard_match_list demoWorld trioStore ⟨some 1⟩ 1 rfl (by decide) (by decide)).elim
    fun cu h => h.elim fun sel hs =>
      ⟨cu, sel, hs.1, hs.2.2.2.1.trans (by decide), fun r hr => (hs.2.1 r hr).2⟩

/-! ## Rejecting collaborators -/

/-- Claim C8, evaluated. POST /register and POST /login send a response in
every world. GET /dashboard, GET /profile and POST /profile do not: for a
session that passes the guard, when the query they await rejects they send
nothing and the rejection leaves the handler; so it is for user 1 of a table
holding Ava when every query rejects. -/
theorem rejection_leaves_protected_handlers :
    (∀ (bc : Bcrypt) (w : World) (st : Store) (s : Session) (body : Body),
      (∃ r, (postRegister bc w st s body).reply = .sent r) ∧
      (∃ r, (postLogin bc w st s body).reply = .sent r)) ∧
    (∀ (w : World) (st : Store) (s : Session) (u : Nat),
      s.userId = some u → u ≠ 0 → w.openOk = true → w.getOk = false →
      (getDashboard w st s).reply = .unhandled ∧ (getProfile w st s).reply = .unhandled) ∧
    (∀ (w : World) (st : Store) (s : Session) (u : Nat) (body : Body) (name bio : String),
      s.userId = some u → u ≠ 0 → body "name" = some name → name ≠ "" →
      body "bio" = some bio → bio ≠ "" → w.openOk = true → w.runOk = false →
      (postProfile w st s body).reply = .unhandled) ∧
    (getDashboard failingQueries avaStore ⟨some 1⟩).reply = .unhandled ∧
    (getProfile failingQueries avaStore ⟨some 1⟩).reply = .unhandled ∧
    (postProfile failingQueries avaStore ⟨some 1⟩ avaBody).reply = .unhandled := by
  refine ⟨?_, ?_, ?_, by decide, by decide, by decide⟩
  · intro bc w st s body
    constructor
    · unfold postRegister
      split
      · simp only []
        split
        · exact ⟨_, rfl⟩
        · split
          · exact ⟨_, rfl⟩
          · split
            · exact ⟨_, rfl⟩
            · split
              · exact ⟨_, rfl⟩
              · split
                · exact ⟨_, rfl⟩
                · split <;> exact ⟨_, rfl⟩
      · exact ⟨_, rfl⟩
    · unfold postLogin
      split
      · simp only []
        split
        · exact ⟨_, rfl⟩
        · split
          · exact ⟨_, rfl⟩
          · split
            · exact ⟨_, rfl⟩
            · split <;> exact ⟨_, rfl⟩
      · exact ⟨_, rfl⟩
  · intro w st s u hu hu0 ho hg
    simp [getDashboard, getProfile, requireAuth, hu, hu0, ho, hg]
  · intro w st s u body name bio hu hu0 hn hn0 hb hb0 ho hr
    simp [postProfile, requireAuth, hu, hu0, required_eq_some hn hn0, required_eq_some hb hb0,
      ho, hr]

/-! ## What a handler does to the store and the session -/

theorem required_ne_empty {v : Option String} {x : String} (h : required v = some x) :
    x ≠ "" := by
  unfold required at h
  split at h
  · split at h
    · simp at h
    · rename_i s hs
      simp only [Option.some.injEq] at h
      exact h ▸ hs
  · simp at h

theorem Store.insert_eq_some {st st' : Store} {name email passwordHash bio : String}
    {now lastID : Nat} (h : st.insert name email passwordHash bio now = some (st', lastID)) :
    (∀ r ∈ st.rows, r.email ≠ email) ∧
    st' = ⟨st.rows ++ [⟨st.nextId, name, email, passwordHash, bio, now⟩], st.nextId⟩ ∧
    lastID = st.nextId := by
  unfold Store.insert at h
  split at h
  · simp at h
  · rename_i hany
    simp only [Option.some.injEq, Prod.mk.injEq] at h
    refine ⟨?_, h.1.symm, h.2.symm⟩
    intro r hr he
    apply hany
    rw [List.any_eq_true]
    exact ⟨r, hr, by simpa using he⟩

theorem requireAuth_effect (st : Store) (s : Session) (next : Nat → Result)
    (h : ∀ u, Effect st s (next u).store (next u).session) :
    Effect st s (requireAuth st s next).store (requireAuth st s next).session := by
  unfold requireAuth
  split
  · exact Or.inl ⟨rfl, Or.inl rfl⟩
  · split
    · exact Or.inl ⟨rfl, Or.inl rfl⟩
    · exact h _

theorem postRegister_effect (bc : Bcrypt) (w : World) (st : Store) (s : Session) (body : Body) :
    Effect st s (postRegister bc w st s body).store (postRegister bc w st s body).session := by
  unfold postRegister
  split
  · rename_i name email password bio hn he hp hb
    simp only []
    split
    · exact Or.inl ⟨rfl, Or.inl rfl⟩
    · split
      · exact Or.inl ⟨rfl, Or.inl rfl⟩
      · split
        · exact Or.inl ⟨rfl, Or.inl rfl⟩
        · split
          · exact Or.inl ⟨rfl, Or.inl rfl⟩
          · split
            · exact Or.inl ⟨rfl, Or.inl rfl⟩
            · split
              · exact Or.inl ⟨rfl, Or.inl rfl⟩
              · rename_i st' lastID hins
                obtain ⟨hfresh, hst, hid⟩ := Store.insert_eq_some hins
                refine Or.inr (Or.inr ⟨name, email, _, bio, w.now, required_ne_empty hn,
                  required_ne_empty hb, hfresh, hst, ?_⟩)
                simp [hid]
  · exact Or.inl ⟨rfl, Or.inl rfl⟩

theorem postLogin_effect (bc : Bcrypt) (w : World) (st : Store) (s : Session) (body : Body) :
    Effect st s (postLogin bc w st s body).store (postLogin bc w st s body).session := by
  unfold postLogin
  split
  · simp only []
    split
    · exact Or.inl ⟨rfl, Or.inl rfl⟩
    · split
      · exact Or.inl ⟨rfl, Or.inl rfl⟩
      · split
        · exact Or.inl ⟨rfl, Or.inl rfl⟩
        · rename_i user hfind
          split
          · exact Or.inl ⟨rfl, Or.inl rfl⟩
          · exact Or.inl ⟨rfl, Or.inl rfl⟩
          · refine Or.inl ⟨rfl, Or.inr (Or.inr ⟨user, ?_, rfl⟩)⟩
            exact List.mem_of_find?_eq_some hfind
  · exact Or.inl ⟨rfl, Or.inl rfl⟩

theorem postProfile_effect (w : World) (st : Store) (s : Session) (body : Body) :
    Effect st s (postProfile w st s body).store (postProfile w st s body).session := by
  unfold postProfile
  apply requireAuth_effect
  intro u
  split
  · rename_i name bio hn hb
    split
    · exact Or.inl ⟨rfl, Or.inl rfl⟩
    · split
      · exact Or.inl ⟨rfl, Or.inl rfl⟩
      · exact Or.inr (Or.inl ⟨name, bio, u, required_ne_empty hn, required_ne_empty hb, rfl, rfl⟩)
  · exact Or.inl ⟨rfl, Or.inl rfl⟩

theorem handle_effect (bc : Bcrypt) (w : World) (st : Store) (s : Session) (req : Request) :
    Effect st s (handle bc w st s req).store (handle bc w st s req).session := by
  obtain ⟨route, body⟩ := req
  cases route <;> simp only [handle]
  · unfold getRoot
    split
    · exact Or.inl ⟨rfl, Or.inl rfl⟩
    · split <;> exact Or.inl ⟨rfl, Or.inl rfl⟩
  · exact Or.inl ⟨rfl, Or.inl rfl⟩
  · exact postRegister_effect bc w st s body
  · exact Or.inl ⟨rfl, Or.inl rfl⟩
  · exact postLogin_effect bc w st s body
  · unfold getDashboard
    apply requireAuth_effect
    intro u
    split
    · exact Or.inl ⟨rfl, Or.inl rfl⟩
    · split
      · exact Or.inl ⟨rfl, Or.inl rfl⟩
      · split <;> exact Or.inl ⟨rfl, Or.inl rfl⟩
  · exact Or.inl ⟨rfl, Or.inr (Or.inl rfl)⟩
  · unfold getProfile
    apply requireAuth_effect
    intro u
    split
    · exact Or.inl ⟨rfl, Or.inl rfl⟩
    · split <;> exact Or.inl ⟨rfl, Or.inl rfl⟩
  · exact postProfile_effect w st s body

/-! ## The store invariant -/

theorem Store.id_lt_nextId {st : Store} {r : User} (hr : r ∈ st.rows) : r.id < st.nextId := by
  have hmax : ∀ rows : List User, r ∈ rows → r.id ≤ rows.foldr (fun r m => max r.id m) 0 := by
    intro rows
    induction rows with
    | nil => intro h; simp at h
    | cons a rest ih =>
      intro h
      simp only [List.foldr_cons]
      rcases List.mem_cons.mp h with h | h
      · subst h; exact Nat.le_max_left _ _
      · exact Nat.le_trans (ih h) (Nat.le_max_right _ _)
  have h1 : r.id ≤ st.maxId := hmax st.rows hr
  have h2 : st.maxId ≤ max st.seq st.maxId := Nat.le_max_right _ _
  unfold Store.nextId
  omega

theorem Store.update_map_email (st : Store) (name bio : String) (u : Nat) :
    (st.update name bio u).rows.map (fun r => r.email) = st.rows.map (fun r => r.email) := by
  simp only [Store.update, List.map_map]
  apply List.map_congr_left
  intro r _
  simp only [Function.comp]
  split <;> rfl

theorem Store.update_map_id (st : Store) (name bio : String) (u : Nat) :
    (st.update name bio u).rows.map (fun r => r.id) = st.rows.map (fun r => r.id) := by
  simp only [Store.update, List.map_map]
  apply List.map_congr_left
  intro r _
  simp only [Function.comp]
  split <;> rfl

theorem StoreInv_of_effect {st st' : Store} {s s' : Session} (h : Effect st s st' s')
    (hinv : StoreInv st) : StoreInv st' := by
  obtain ⟨hemail, hid, hne⟩ := hinv
  rcases h with ⟨rfl, -⟩ | ⟨name, bio, u, hn, hb, rfl, -⟩ | ⟨name, email, h, bio, now, hn, hb, hfresh, rfl, -⟩
  · exact ⟨hemail, hid, hne⟩
  · refine ⟨by rw [Store.update_map_email]; exact hemail,
      by rw [Store.update_map_id]; exact hid, ?_⟩
    intro r hr
    simp only [Store.update, List.mem_map] at hr
    obtain ⟨r0, hr0, rfl⟩ := hr
    split
    · exact ⟨hn, hb⟩
    · exact hne r0 hr0
  · refine ⟨?_, ?_, ?_⟩
    · simp only [List.map_append, List.map_cons, List.map_nil]
      rw [List.nodup_append]
      refine ⟨hemail, List.nodup_singleton _, ?_⟩
      intro a ha hb'
      simp only [List.mem_singleton] at hb'
      subst hb'
      simp only [List.mem_map] at ha
      obtain ⟨r, hr, he⟩ := ha
      exact hfresh r hr he
    · simp only [List.map_append, List.map_cons, List.map_nil]
      rw [List.nodup_append]
      refine ⟨hid, List.nodup_singleton _, ?_⟩
      intro a ha hb'
      simp only [List.mem_singleton] at hb'
      subst hb'
      simp only [List.mem_map] at ha
      obtain ⟨r, hr, he⟩ := ha
      have := Store.id_lt_nextId hr
      omega
    · intro r hr
      rcases List.mem_append.mp hr with hr | hr
      · exact hne r hr
      · simp only [List.mem_singleton] at hr
        subst hr
        exact ⟨hn, hb⟩

theorem keys_of_effect {st st' : Store} {s s' : Session} (h : Effect st s st' s') :
    ∃ added : List (Nat × String),
      st'.rows.map (fun r => (r.id, r.email)) = st.rows.map (fun r => (r.id, r.email)) ++ added := by
  rcases h with ⟨rfl, -⟩ | ⟨name, bio, u, -, -, rfl, -⟩ | ⟨name, email, h, bio, now, -, -, -, rfl, -⟩
  · exact ⟨[], by simp⟩
  · refine ⟨[], ?_⟩
    simp only [Store.update, List.map_map, List.append_nil]
    apply List.map_congr_left
    intro r _
    simp only [Function.comp]
    split <;> rfl
  · exact ⟨[(st.nextId, email)], by simp⟩

theorem SystemInv_step (bc : Bcrypt) (g : System) (tok : Nat) (w : World) (req : Request)
    (hinv : SystemInv g) : SystemInv (g.step bc tok w req) := by
  obtain ⟨hst, hz, hs⟩ := hinv
  have heff := handle_effect bc w g.store (g.sessions tok) req
  refine ⟨StoreInv_of_effect heff hst, ?_, ?_⟩
  · simp only [System.step]
    rcases heff with ⟨e, -⟩ | ⟨name, bio, u, -, -, e, -⟩ | ⟨name, email, h, bio, now, -, -, -, e, -⟩
    · rw [e]; exact hz
    · rw [e]
      intro r hr
      simp only [Store.update, List.mem_map] at hr
      obtain ⟨r0, hr0, rfl⟩ := hr
      have := hz r0 hr0
      split <;> exact this
    · rw [e]
      intro r hr
      rcases List.mem_append.mp hr with hr | hr
      · exact hz r hr
      · simp only [List.mem_singleton] at hr
        subst hr
        simp [Store.nextId]
  · intro tok' u hu
    simp only [System.step] at hu ⊢
    rcases heff with ⟨e, hs'⟩ | ⟨name, bio, u0, -, -, e, hs'⟩ | ⟨name, email, h, bio, now, -, -, -, e, hs'⟩
    · rw [e]
      by_cases ht : tok' = tok
      · subst ht
        rw [Function.update_same] at hu
        rcases hs' with hs' | hs' | ⟨r, hr, hs'⟩
        · rw [hs'] at hu; exact hs tok' u hu
        · rw [hs'] at hu; simp at hu
        · rw [hs'] at hu
          simp only [Option.some.injEq] at hu
          exact ⟨r, hr, hu⟩
      · rw [Function.update_noteq ht] at hu
        exact hs tok' u hu
    · rw [e]
      have hold : ∃ r ∈ g.store.rows, r.id = u := by
        by_cases ht : tok' = tok
        · subst ht
          rw [Function.update_same, hs'] at hu
          exact hs tok' u hu
        · rw [Function.update_noteq ht] at hu
          exact hs tok' u hu
      obtain ⟨r, hr, hid⟩ := hold
      refine ⟨_, List.mem_map.mpr ⟨r, hr, rfl⟩, ?_⟩
      split <;> exact hid
    · rw [e]
      by_cases ht : tok' = tok
      · subst ht
        rw [Function.update_same, hs'] at hu
        simp only [Option.some.injEq] at hu
        exact ⟨_, List.mem_append.mpr (Or.inr (List.mem_singleton.mpr rfl)), hu⟩
      · rw [Function.update_noteq ht] at hu
        obtain ⟨r, hr, hid⟩ := hs tok' u hu
        exact ⟨r, List.mem_append.mpr (Or.inl hr), hid⟩

theorem SystemInv_of_reachable (bc : Bcrypt) {g : System} (hg : Reachable bc g) :
    SystemInv g := by
  induction hg with
  | init seq => exact ⟨by simp [StoreInv], by simp, by simp⟩
  | step tok w req _ ih => exact SystemInv_step bc _ tok w req ih

theorem Store.getById_of_mem {st : Store} {u : Nat} (h : ∃ r ∈ st.rows, r.id = u) :
    ∃ row, st.getById u = some row ∧ row.id = u := by
  cases hg : st.getById u with
  | none =>
    simp only [Store.getById, List.find?_eq_none] at hg
    obtain ⟨r, hr, he⟩ := h
    exact absurd (by simpa using he) (hg r hr)
  | some row =>
    refine ⟨row, rfl, ?_⟩
    have := List.find?_some hg
    simpa using this

theorem count_id_eq_one {rows : List User} {u : Nat}
    (hnd : (rows.map (fun r => r.id)).Nodup) (h : ∃ r ∈ rows, r.id = u) :
    (rows.filter (fun r => r.id == u)).length = 1 := by
  have hmem : u ∈ rows.map (fun r => r.id) := by
    obtain ⟨r, hr, he⟩ := h
    exact List.mem_map.mpr ⟨r, hr, he⟩
  have hc : (rows.map (fun r => r.id)).count u = 1 := List.count_eq_one_of_mem hnd hmem
  rw [List.count, List.countP_map, List.countP_eq_length_filter] at hc
  rw [← hc]
  rfl

end Dating
